import Mathlib

/-!
Shallow embedding of the FastAPI todo service (src/fastapi-app/main.py).

Python strings are modelled as Lean `String` (with `List Char` used inside the
date parser, mirroring `v.split("-")` and `int(...)`), JSON integers as `Int`,
the persisted `todo.json` file as a `FileState`, and each request handler as a
pure function from the file state (plus the validated request data) to the new
file state and the HTTP-visible result.

Two distinct dates occur in the Python module:
* `TODAY` (main.py line 15) is computed once at module import; the handlers
  use it for the legacy-record backfill.  It is passed below as `startToday`.
* `TodoItem.date`'s `default_factory` calls `date.today()` when the request
  body is validated, i.e. at request time.  It is passed as `reqToday`.
-/

namespace Todos

/-- A record as stored in `todo.json`.  Legacy records may lack the
`date` key, hence `Option String`. -/
structure Record where
  id : Int
  title : String
  description : String
  completed : Bool
  date : Option String
deriving Repr, DecidableEq

/-- A request body for `POST /todos` and `PUT /todos/{id}`, before pydantic
validation: `completed` and `date` may be omitted. -/
structure RawTodo where
  id : Int
  title : String
  description : String
  completed : Option Bool
  date : Option String
deriving Repr, DecidableEq

/-- The validated pydantic model `TodoItem`: every field present,
`title`/`description` trimmed and non-empty, `date` a concrete string. -/
structure TodoItem where
  id : Int
  title : String
  description : String
  completed : Bool
  date : String
deriving Repr, DecidableEq

/-- `TodoItem.model_dump()`: the dict appended to the stored list. -/
def TodoItem.dump (t : TodoItem) : Record :=
  Record.mk t.id t.title t.description t.completed (some t.date)

/-! ### The date validator

`valid_date` embeds the `@field_validator("date")` bodies of `TodoItem` and
`DateOnly` (they are identical):

    y, m, d = map(int, v.split("-"))
    _ = _date(y, m, d)

Any exception (wrong number of parts, a part `int()` rejects, or an
out-of-range calendar date) yields a `ValueError`. -/

/-- Python `v.split("-")` on the character list of `v`. -/
def splitOnDash : List Char → List (List Char)
  | [] => [[]]
  | c :: rest =>
    if c = '-' then [] :: splitOnDash rest
    else
      match splitOnDash rest with
      | first :: others => (c :: first) :: others
      | [] => [[c]]

/-- The whitespace characters Python's `int(str)` strips (ASCII subset). -/
def isPySpace (c : Char) : Bool :=
  c = ' ' || c = '\t' || c = '\n' || c = '\r' || c = '\x0b' || c = '\x0c'

/-- Strip leading and trailing whitespace, as `int(str)` does. -/
def pyStrip (s : List Char) : List Char :=
  ((s.dropWhile isPySpace).reverse.dropWhile isPySpace).reverse

def isDigitChar (c : Char) : Bool := '0' ≤ c && c ≤ '9'

/-- Scanner for the digit run `int()` accepts: digits with single
underscores strictly between digits.  `needDigit` is true at the start and
right after an underscore, where only a digit may follow. -/
def pyDigScan : List Char → Bool → Bool
  | [], needDigit => !needDigit
  | c :: rest, needDigit =>
    if c = '_' then
      if needDigit then false else pyDigScan rest true
    else isDigitChar c && pyDigScan rest false

/-- A digit run acceptable to `int()` after sign stripping: non-empty,
digits with single underscores between digits. -/
def pyDigitsOk (l : List Char) : Bool :=
  pyDigScan l true

/-- Numeric value of a digit-and-underscore run (underscores ignored). -/
def pyDigitsVal (l : List Char) : Nat :=
  List.foldl (fun acc c => if c = '_' then acc else acc * 10 + (c.toNat - 48)) 0 l

/-- Python `int(str)` restricted to ASCII input: strip whitespace, then an
optional sign, then a digit run; `none` models the `ValueError` path. -/
def pyInt (s : List Char) : Option Int :=
  match pyStrip s with
  | [] => none
  | c :: rest =>
    if c = '+' then
      if pyDigitsOk rest then some (pyDigitsVal rest : Int) else none
    else if c = '-' then
      if pyDigitsOk rest then some (-(pyDigitsVal rest : Int)) else none
    else
      if pyDigitsOk (c :: rest) then some (pyDigitsVal (c :: rest) : Int) else none

/-- Gregorian leap-year predicate, as `datetime.date` uses. -/
def isLeap (y : Int) : Bool :=
  y % 4 = 0 && (y % 100 ≠ 0 || y % 400 = 0)

/-- Days in a month, per `datetime.date` (for valid months). -/
def daysInMonth (y m : Int) : Int :=
  if m = 2 then (if isLeap y then 29 else 28)
  else if m = 4 || m = 6 || m = 9 || m = 11 then 30
  else 31

/-- `datetime.date(y, m, d)` succeeds: `MINYEAR = 1` through `MAXYEAR = 9999`,
month `1..12`, day within the month. -/
def isRealDate (y m d : Int) : Bool :=
  1 ≤ y && y ≤ 9999 && 1 ≤ m && m ≤ 12 && 1 ≤ d && d ≤ daysInMonth y m

/-- The shared date validator of `TodoItem` and `DateOnly`. -/
def valid_date (v : String) : Bool :=
  match splitOnDash v.data with
  | [ys, ms, ds] =>
    match pyInt ys, pyInt ms, pyInt ds with
    | some y, some m, some d => isRealDate y m d
    | _, _, _ => false
  | _ => false

/-! ### Field validation (pydantic boundary) -/

/-- Python `v.strip()` (ASCII whitespace subset), on Lean strings. -/
def pyTrim (s : String) : String :=
  String.mk (((s.data.dropWhile isPySpace).reverse.dropWhile isPySpace).reverse)

/-- The `not_empty` validator for `title` and `description`:
reject blank values (`not v or not v.strip()`), store the stripped
string. -/
def not_empty (v : String) : Except String String :=
  if pyTrim v = "" then Except.error "must not be empty" else Except.ok (pyTrim v)

/-- Validate a raw `POST`/`PUT` body into a `TodoItem`.  When `date` is
omitted, pydantic's `default_factory` fills the request-time date
(`reqToday`) without running the validator on it. -/
def parseTodoItem (raw : RawTodo) (reqToday : String) : Except String TodoItem :=
  match not_empty raw.title with
  | Except.error e => Except.error e
  | Except.ok title =>
    match not_empty raw.description with
    | Except.error e => Except.error e
    | Except.ok description =>
      match raw.date with
      | none =>
        Except.ok
          (TodoItem.mk raw.id title description (raw.completed.getD false) reqToday)
      | some v =>
        if valid_date v then
          Except.ok
            (TodoItem.mk raw.id title description (raw.completed.getD false) v)
        else Except.error "date must be YYYY-MM-DD"

/-- Validate the `PATCH /todos/{id}/date` body (`DateOnly`): the field is
required, and must pass `valid_date`. -/
def parseDateOnly (raw : Option String) : Except String String :=
  match raw with
  | none => Except.error "Field required"
  | some v =>
    if valid_date v then Except.ok v else Except.error "date must be YYYY-MM-DD"

/-! ### Storage adapter -/

/-- The persisted `todo.json`: absent, present but not JSON-decodable,
or a decoded list of records. -/
inductive FileState where
  | missing
  | malformed (raw : String)
  | stored (records : List Record)
deriving Repr, DecidableEq

/-- `load_todos()`: a missing file and a `JSONDecodeError` both yield `[]`. -/
def load_todos : FileState → List Record
  | FileState.missing => []
  | FileState.malformed _ => []
  | FileState.stored rs => rs

/-- `save_todos(todos)`: overwrite the whole file. -/
def save_todos (rs : List Record) : FileState :=
  FileState.stored rs

/-! ### Request handlers -/

/-- The externally visible outcome of a handler. -/
inductive ApiResult (α : Type) where
  | ok (value : α)
  | notFound
  | conflict
  | validationError (msg : String)
deriving Repr, DecidableEq

/-- Backfill applied on reads: `if "date" not in t: t["date"] = TODAY`. -/
def ensure_date (startToday : String) (t : Record) : Record :=
  match t.date with
  | none => Record.mk t.id t.title t.description t.completed (some startToday)
  | some _ => t

/-- `GET /todos` with the optional `completed` and `date` filters. -/
def get_todos (startToday : String) (file : FileState)
    (completed : Option Bool) (date : Option String) :
    FileState × ApiResult (List Record) :=
  let todos := (load_todos file).map (ensure_date startToday)
  let todos :=
    match completed with
    | some c => todos.filter (fun t => t.completed == c)
    | none => todos
  let todos :=
    match date with
    | some d => todos.filter (fun t => t.date == some d)
    | none => todos
  (file, ApiResult.ok todos)

/-- `GET /todos/{id}`: first record with the id, backfilled; no save. -/
def get_todo (startToday : String) (file : FileState) (todo_id : Int) :
    FileState × ApiResult Record :=
  match (load_todos file).find? (fun t => t.id == todo_id) with
  | some t => (file, ApiResult.ok (ensure_date startToday t))
  | none => (file, ApiResult.notFound)

/-- `POST /todos` after validation: duplicate id is a 409, otherwise append
and save. -/
def create_todo (file : FileState) (todo : TodoItem) :
    FileState × ApiResult TodoItem :=
  let todos := load_todos file
  if todos.any (fun t => t.id == todo.id) then
    (file, ApiResult.conflict)
  else
    (save_todos (todos ++ [todo.dump]), ApiResult.ok todo)

/-- The `for i, t in enumerate(todos)` loop of `update_todo`: replace the
first record with the given id by the merged dict and return it. -/
def update_loop (startToday : String) (todo_id : Int) (updated : TodoItem) :
    List Record → Option (List Record × Record)
  | [] => none
  | t :: rest =>
    if t.id == todo_id then
      let m0 := updated.dump
      let m1 := Record.mk todo_id m0.title m0.description m0.completed m0.date
      let merged :=
        if updated.date == "" then
          Record.mk m1.id m1.title m1.description m1.completed
            (some (t.date.getD startToday))
        else m1
      some (merged :: rest, merged)
    else
      match update_loop startToday todo_id updated rest with
      | some (rest2, r) => some (t :: rest2, r)
      | none => none

/-- `PUT /todos/{id}` after validation. -/
def update_todo (startToday : String) (file : FileState) (todo_id : Int)
    (updated : TodoItem) : FileState × ApiResult Record :=
  match update_loop startToday todo_id updated (load_todos file) with
  | some (todos2, merged) => (save_todos todos2, ApiResult.ok merged)
  | none => (file, ApiResult.notFound)

/-- `DELETE /todos/{id}`: keep every record whose id differs; 404 when
nothing was removed. -/
def delete_todo (file : FileState) (todo_id : Int) :
    FileState × ApiResult Unit :=
  let todos := load_todos file
  let new_todos := todos.filter (fun t => !(t.id == todo_id))
  if new_todos.length == todos.length then
    (file, ApiResult.notFound)
  else
    (save_todos new_todos, ApiResult.ok ())

/-- The loop of `update_todo_date`: backfill a missing date, then overwrite
it with the payload, in place. -/
def patch_loop (startToday : String) (todo_id : Int) (d : String) :
    List Record → Option (List Record × Record)
  | [] => none
  | t :: rest =>
    if t.id == todo_id then
      let t2 := ensure_date startToday t
      let t3 := Record.mk t2.id t2.title t2.description t2.completed (some d)
      some (t3 :: rest, t3)
    else
      match patch_loop startToday todo_id d rest with
      | some (rest2, r) => some (t :: rest2, r)
      | none => none

/-- `PATCH /todos/{id}/date` after validation. -/
def update_todo_date (startToday : String) (file : FileState) (todo_id : Int)
    (payload : String) : FileState × ApiResult Record :=
  match patch_loop startToday todo_id payload (load_todos file) with
  | some (todos2, r) => (save_todos todos2, ApiResult.ok r)
  | none => (file, ApiResult.notFound)

/-! ### Endpoints including the validation boundary

FastAPI runs pydantic validation before the handler body; a validation
failure is a 422 that never touches the storage file. -/

/-- `POST /todos`, validation included. -/
def postTodos (reqToday : String) (file : FileState) (raw : RawTodo) :
    FileState × ApiResult TodoItem :=
  match parseTodoItem raw reqToday with
  | Except.error e => (file, ApiResult.validationError e)
  | Except.ok todo => create_todo file todo

/-- `PUT /todos/{id}`, validation included. -/
def putTodo (startToday reqToday : String) (file : FileState) (todo_id : Int)
    (raw : RawTodo) : FileState × ApiResult Record :=
  match parseTodoItem raw reqToday with
  | Except.error e => (file, ApiResult.validationError e)
  | Except.ok todo => update_todo startToday file todo_id todo

/-- `PATCH /todos/{id}/date`, validation included. -/
def patchTodoDate (startToday : String) (file : FileState) (todo_id : Int)
    (raw : Option String) : FileState × ApiResult Record :=
  match parseDateOnly raw with
  | Except.error e => (file, ApiResult.validationError e)
  | Except.ok d => update_todo_date startToday file todo_id d

/-! ### The spec's strict date format (for comparison with `valid_date`) -/

/-- Modelled from the spec: a string in strict `YYYY-MM-DD` form — four
digits, a hyphen, two digits, a hyphen, two digits. -/
def specIsYYYYMMDD (v : String) : Bool :=
  match v.data with
  | [y1, y2, y3, y4, h1, m1, m2, h2, d1, d2] =>
    isDigitChar y1 && isDigitChar y2 && isDigitChar y3 && isDigitChar y4 &&
    h1 = '-' && isDigitChar m1 && isDigitChar m2 &&
    h2 = '-' && isDigitChar d1 && isDigitChar d2
  | _ => false

/-- Digit character for a value below ten. -/
def digitChar (n : Nat) : Char := Char.ofNat (48 + n)

/-- Two-digit zero-padded decimal (for `n ≤ 99`). -/
def pad2 (n : Nat) : List Char :=
  if n < 10 then ['0', digitChar n] else [digitChar (n / 10), digitChar (n % 10)]

/-- Four-digit zero-padded decimal (for `n ≤ 9999`). -/
def pad4 (n : Nat) : List Char :=
  pad2 (n / 100) ++ pad2 (n % 100)

/-- The strict `YYYY-MM-DD` rendering of a numeric date. -/
def specDateString (y m d : Nat) : String :=
  String.mk (pad4 y ++ '-' :: (pad2 m ++ '-' :: pad2 d))

end Todos

namespace Todos

/-! ### Helper lemmas -/

lemma load_todos_stored (l : List Record) :
    load_todos (FileState.stored l) = l := rfl

lemma update_loop_spec (startToday : String) (todo_id : Int) (u : TodoItem)
    (l : List Record) :
    ∀ l2 r, update_loop startToday todo_id u l = some (l2, r) →
      r.id = todo_id ∧ r ∈ l2 ∧ (u.date ≠ "" → r.date = some u.date) := by
  induction l with
  | nil => intro l2 r h; simp [update_loop] at h
  | cons t rest ih =>
    intro l2 r h
    by_cases hid : (t.id == todo_id) = true
    · by_cases hd : (u.date == "") = true
      · simp only [update_loop, hid, if_true, hd] at h
        obtain ⟨h1, h2⟩ := Prod.mk.injEq .. ▸ (Option.some.injEq .. ▸ h)
        refine ⟨?_, ?_, ?_⟩
        · rw [← h2]
        · rw [← h1, ← h2]; exact List.mem_cons_self _ _
        · intro hne; exact absurd (by simpa using hd) hne
      · simp only [update_loop, hid, if_true, hd, if_false, Bool.false_eq_true] at h
        obtain ⟨h1, h2⟩ := Prod.mk.injEq .. ▸ (Option.some.injEq .. ▸ h)
        refine ⟨?_, ?_, ?_⟩
        · rw [← h2]
        · rw [← h1, ← h2]; exact List.mem_cons_self _ _
        · intro _; rw [← h2]; rfl
    · simp only [update_loop, hid, if_false, Bool.false_eq_true] at h
      cases hu : update_loop startToday todo_id u rest with
      | none => rw [hu] at h; simp at h
      | some p =>
        obtain ⟨rest2, r2⟩ := p
        rw [hu] at h
        simp only [Option.some.injEq, Prod.mk.injEq] at h
        obtain ⟨h1, h2⟩ := h
        obtain ⟨g1, g2, g3⟩ := ih rest2 r2 hu
        subst h2
        exact ⟨g1, by rw [← h1]; exact List.mem_cons_of_mem _ g2, g3⟩

lemma patch_loop_spec (startToday : String) (todo_id : Int) (d : String)
    (l : List Record) :
    ∀ t0, l.find? (fun t => t.id == todo_id) = some t0 →
      ∃ l2, patch_loop startToday todo_id d l =
          some (l2, Record.mk t0.id t0.title t0.description t0.completed (some d)) ∧
        Record.mk t0.id t0.title t0.description t0.completed (some d) ∈ l2 := by
  induction l with
  | nil => intro t0 h; simp [List.find?] at h
  | cons t rest ih =>
    intro t0 h
    by_cases hid : (t.id == todo_id) = true
    · have hstep : (t :: rest).find? (fun t => t.id == todo_id) = some t := by
        simp [List.find?_cons, hid]
      rw [hstep] at h
      obtain rfl : t = t0 := by simpa using h
      refine ⟨Record.mk t.id t.title t.description t.completed (some d) :: rest,
        ?_, List.mem_cons_self _ _⟩
      cases ht : t.date with
      | none => simp [patch_loop, hid, ensure_date, ht]
      | some d0 => simp [patch_loop, hid, ensure_date, ht]
    · have hstep : (t :: rest).find? (fun t => t.id == todo_id) =
          rest.find? (fun t => t.id == todo_id) := by
        simp [List.find?_cons, hid]
      rw [hstep] at h
      obtain ⟨l2, hl, hm⟩ := ih t0 h
      exact ⟨t :: l2, by simp [patch_loop, hid, hl], List.mem_cons_of_mem _ hm⟩

lemma parseTodoItem_date_none (raw : RawTodo) (reqToday : String) (t : TodoItem)
    (hd : raw.date = none) (h : parseTodoItem raw reqToday = Except.ok t) :
    t.date = reqToday := by
  unfold parseTodoItem at h
  cases h1 : not_empty raw.title with
  | error e => rw [h1] at h; simp at h
  | ok title =>
    rw [h1] at h
    cases h2 : not_empty raw.description with
    | error e => rw [h2] at h; simp at h
    | ok description =>
      rw [h2, hd] at h
      obtain rfl : _ = t := by simpa using h
      rfl

lemma data_mk (l : List Char) : (String.mk l).data = l := rfl

lemma digitChar_isDigit {k : Nat} (hk : k < 10) :
    isDigitChar (digitChar k) = true := by
  interval_cases k <;> decide

lemma digitChar_val {k : Nat} (hk : k < 10) : (digitChar k).toNat - 48 = k := by
  interval_cases k <;> decide

lemma digitChar_ne_underscore {k : Nat} (hk : k < 10) : ¬ (digitChar k = '_') := by
  interval_cases k <;> decide

lemma isDigitChar_not_space {c : Char} (h : isDigitChar c = true) :
    isPySpace c = false := by
  by_contra hc
  rw [Bool.not_eq_false] at hc
  simp only [isPySpace, Bool.or_eq_true, decide_eq_true_eq] at hc
  rcases hc with ((((rfl | rfl) | rfl) | rfl) | rfl) | rfl <;>
    exact absurd h (by decide)

lemma isDigitChar_ne_dash {c : Char} (h : isDigitChar c = true) : ¬ (c = '-') :=
  fun he => by subst he; exact absurd h (by decide)

lemma dropWhile_eq_self_of_false {p : Char → Bool} :
    ∀ l : List Char, (∀ c ∈ l, p c = false) → l.dropWhile p = l
  | [], _ => rfl
  | c :: l, h => by
    rw [List.dropWhile_cons]
    simp [h c (List.mem_cons_self c l)]

lemma pyStrip_digits {l : List Char} (h : ∀ c ∈ l, isDigitChar c = true) :
    pyStrip l = l := by
  have h1 : ∀ c ∈ l, isPySpace c = false :=
    fun c hc => isDigitChar_not_space (h c hc)
  unfold pyStrip
  rw [dropWhile_eq_self_of_false l h1,
    dropWhile_eq_self_of_false l.reverse (fun c hc => h1 c (List.mem_reverse.mp hc)),
    List.reverse_reverse]

lemma pyDigScan_digits (l : List Char) (h : ∀ c ∈ l, isDigitChar c = true) :
    pyDigScan l false = true := by
  induction l with
  | nil => rfl
  | cons c l ih =>
    have hc := h c (List.mem_cons_self c l)
    have hne : ¬ (c = '_') := fun he => by subst he; exact absurd hc (by decide)
    simp only [pyDigScan, if_neg hne]
    rw [hc, ih (fun x hx => h x (List.mem_cons_of_mem _ hx))]
    rfl

lemma pyDigitsOk_of_digits (c : Char) (l : List Char)
    (h : ∀ x ∈ c :: l, isDigitChar x = true) : pyDigitsOk (c :: l) = true := by
  have hc := h c (List.mem_cons_self c l)
  have hne : ¬ (c = '_') := fun he => by subst he; exact absurd hc (by decide)
  simp only [pyDigitsOk, pyDigScan, if_neg hne]
  rw [hc, pyDigScan_digits l (fun x hx => h x (List.mem_cons_of_mem _ hx))]
  rfl

lemma foldl_digits_shift (l : List Char) (h : ∀ c ∈ l, ¬ c = '_') :
    ∀ a : Nat,
      List.foldl (fun acc c => if c = '_' then acc else acc * 10 + (c.toNat - 48)) a l =
        a * 10 ^ l.length +
          List.foldl (fun acc c => if c = '_' then acc else acc * 10 + (c.toNat - 48)) 0 l := by
  induction l with
  | nil => intro a; simp
  | cons c l ih =>
    intro a
    have hc := h c (List.mem_cons_self c l)
    have hl := fun x hx => h x (List.mem_cons_of_mem _ hx)
    simp only [List.foldl_cons, if_neg hc, List.length_cons]
    rw [ih hl (a * 10 + (c.toNat - 48)), ih hl (0 * 10 + (c.toNat - 48))]
    ring

lemma pyDigitsVal_append (l1 l2 : List Char) (h : ∀ c ∈ l2, ¬ c = '_') :
    pyDigitsVal (l1 ++ l2) = pyDigitsVal l1 * 10 ^ l2.length + pyDigitsVal l2 := by
  unfold pyDigitsVal
  rw [List.foldl_append]
  exact foldl_digits_shift l2 h _

lemma pad2_digits (n : Nat) (hn : n ≤ 99) : ∀ c ∈ pad2 n, isDigitChar c = true := by
  intro c hc
  by_cases h : n < 10
  · simp only [pad2] at hc
    rw [if_pos h] at hc
    simp only [List.mem_cons, List.not_mem_nil, or_false] at hc
    rcases hc with rfl | rfl
    · decide
    · exact digitChar_isDigit h
  · simp only [pad2] at hc
    rw [if_neg h] at hc
    simp only [List.mem_cons, List.not_mem_nil, or_false] at hc
    rcases hc with rfl | rfl
    · exact digitChar_isDigit (by omega)
    · exact digitChar_isDigit (by omega)

lemma pad2_len (n : Nat) : (pad2 n).length = 2 := by
  by_cases h : n < 10 <;> simp [pad2, h]

lemma pad2_val (n : Nat) (hn : n ≤ 99) : pyDigitsVal (pad2 n) = n := by
  by_cases h : n < 10
  · have h1 := digitChar_val h
    have h2 := digitChar_ne_underscore h
    simp only [pad2, if_pos h, pyDigitsVal, List.foldl_cons, List.foldl_nil]
    rw [if_neg (by decide : ¬ ('0' = '_')), if_neg h2,
      (by decide : '0'.toNat - 48 = 0), h1]
    omega
  · have hq : n / 10 < 10 := by omega
    have hr : n % 10 < 10 := by omega
    simp only [pad2, if_neg h, pyDigitsVal, List.foldl_cons, List.foldl_nil]
    rw [if_neg (digitChar_ne_underscore hq), if_neg (digitChar_ne_underscore hr),
      digitChar_val hq, digitChar_val hr]
    omega

lemma pad4_digits (n : Nat) (hn : n ≤ 9999) :
    ∀ c ∈ pad4 n, isDigitChar c = true := by
  intro c hc
  simp only [pad4, List.mem_append] at hc
  rcases hc with hc | hc
  · exact pad2_digits (n / 100) (by omega) c hc
  · exact pad2_digits (n % 100) (by omega) c hc

lemma pad4_len (n : Nat) : (pad4 n).length = 4 := by
  simp [pad4, pad2_len]

lemma pad4_val (n : Nat) (hn : n ≤ 9999) : pyDigitsVal (pad4 n) = n := by
  have h2 : ∀ c ∈ pad2 (n % 100), ¬ c = '_' := by
    intro c hc he
    have hd := pad2_digits (n % 100) (by omega) c hc
    subst he; exact absurd hd (by decide)
  rw [pad4, pyDigitsVal_append _ _ h2, pad2_len, pad2_val _ (by omega),
    pad2_val _ (by omega), (by norm_num : (10 : Nat) ^ 2 = 100)]
  omega

lemma pyInt_digits (l : List Char) (hne : l ≠ []) (h : ∀ c ∈ l, isDigitChar c = true) :
    pyInt l = some (pyDigitsVal l : Int) := by
  obtain ⟨c, l2, rfl⟩ := List.exists_cons_of_ne_nil hne
  have hst : pyStrip (c :: l2) = c :: l2 := pyStrip_digits h
  have hc := h c (List.mem_cons_self c l2)
  have hplus : ¬ (c = '+') := fun he => by subst he; exact absurd hc (by decide)
  have hminus : ¬ (c = '-') := fun he => by subst he; exact absurd hc (by decide)
  simp [pyInt, hst, if_neg hplus, if_neg hminus, pyDigitsOk_of_digits c l2 h]

lemma splitOnDash_no_dash : ∀ l : List Char, (∀ c ∈ l, ¬ c = '-') →
    splitOnDash l = [l]
  | [], _ => rfl
  | c :: l, h => by
    have hc := h c (List.mem_cons_self c l)
    simp only [splitOnDash, if_neg hc]
    rw [splitOnDash_no_dash l (fun x hx => h x (List.mem_cons_of_mem _ hx))]

lemma splitOnDash_append : ∀ a r : List Char, (∀ c ∈ a, ¬ c = '-') →
    splitOnDash (a ++ '-' :: r) = a :: splitOnDash r
  | [], r, _ => by simp [splitOnDash]
  | c :: a, r, h => by
    have hc := h c (List.mem_cons_self c a)
    have ih := splitOnDash_append a r (fun x hx => h x (List.mem_cons_of_mem _ hx))
    simp only [List.cons_append, splitOnDash, if_neg hc]
    rw [List.append_eq, ih]

lemma valid_date_specDateString (y m d : Nat)
    (hy : y ≤ 9999) (hm : m ≤ 99) (hd : d ≤ 99) :
    valid_date (specDateString y m d) = isRealDate y m d := by
  have hy4 := pad4_digits y hy
  have hm2 := pad2_digits m hm
  have hd2 := pad2_digits d hd
  have hsplit : splitOnDash (pad4 y ++ '-' :: (pad2 m ++ '-' :: pad2 d)) =
      [pad4 y, pad2 m, pad2 d] := by
    rw [splitOnDash_append _ _ (fun c hc => isDigitChar_ne_dash (hy4 c hc)),
      splitOnDash_append _ _ (fun c hc => isDigitChar_ne_dash (hm2 c hc)),
      splitOnDash_no_dash _ (fun c hc => isDigitChar_ne_dash (hd2 c hc))]
  have hy_ne : pad4 y ≠ [] :=
    List.ne_nil_of_length_pos (by rw [pad4_len]; omega)
  have hm_ne : pad2 m ≠ [] :=
    List.ne_nil_of_length_pos (by rw [pad2_len]; omega)
  have hd_ne : pad2 d ≠ [] :=
    List.ne_nil_of_length_pos (by rw [pad2_len]; omega)
  have hiy : pyInt (pad4 y) = some (y : Int) := by
    rw [pyInt_digits _ hy_ne hy4, pad4_val y hy]
  have him : pyInt (pad2 m) = some (m : Int) := by
    rw [pyInt_digits _ hm_ne hm2, pad2_val m hm]
  have hidd : pyInt (pad2 d) = some (d : Int) := by
    rw [pyInt_digits _ hd_ne hd2, pad2_val d hd]
  simp only [valid_date, specDateString, data_mk, hsplit, hiy, him, hidd]

/-! ### Claim theorems -/

/-- C5.  The List and Get-one handlers never change the persisted file:
for every file state, filter combination and id, the file component of the
result equals the input file, even though the returned records are
date-backfilled copies. -/
theorem reads_do_not_mutate_file (startToday : String) (file : FileState)
    (completed : Option Bool) (date : Option String) (todo_id : Int) :
    (get_todos startToday file completed date).1 = file ∧
    (get_todo startToday file todo_id).1 = file := by
  constructor
  · rfl
  · unfold get_todo
    cases h : (load_todos file).find? (fun t => t.id == todo_id) <;> rfl

/-- C8.  `load_todos` returns the empty collection both when the file is
missing and when its contents fail JSON decoding, and (being a total
function) raises nothing. -/
theorem load_missing_or_corrupt_empty (raw : String) :
    load_todos FileState.missing = [] ∧
    load_todos (FileState.malformed raw) = [] :=
  ⟨rfl, rfl⟩

/-- C6.  Creating a todo whose id is already present in the stored
collection yields a 409 Conflict and leaves the file unchanged. -/
theorem create_duplicate_id_conflict (file : FileState) (todo : TodoItem)
    (t : Record) (hmem : t ∈ load_todos file) (hid : t.id = todo.id) :
    create_todo file todo = (file, ApiResult.conflict) := by
  have hany : (load_todos file).any (fun t => t.id == todo.id) = true :=
    List.any_eq_true.mpr ⟨t, hmem, by simp [hid]⟩
  simp [create_todo, hany]

/-- C6 witness. -/
theorem create_duplicate_id_conflict_witness :
    create_todo (FileState.stored [Record.mk 1 "A" "B" false (some "2024-01-01")])
        (TodoItem.mk 1 "A2" "B2" true "2024-02-02") =
      (FileState.stored [Record.mk 1 "A" "B" false (some "2024-01-01")],
        ApiResult.conflict) :=
  create_duplicate_id_conflict _ _
    (Record.mk 1 "A" "B" false (some "2024-01-01")) (by decide) (by decide)

/-- C7.  Deleting an id that no stored record carries yields a 404 and
leaves the stored collection (in particular its length) unchanged. -/
theorem delete_missing_id_not_found (file : FileState) (todo_id : Int)
    (h : ∀ t ∈ load_todos file, t.id ≠ todo_id) :
    delete_todo file todo_id = (file, ApiResult.notFound) ∧
    (load_todos (delete_todo file todo_id).1).length =
      (load_todos file).length := by
  have hf : (load_todos file).filter (fun t => !(t.id == todo_id)) =
      load_todos file := by
    apply List.filter_eq_self.mpr
    intro t ht
    simpa using h t ht
  refine ⟨?_, ?_⟩ <;> simp [delete_todo, hf]

/-- C7 witness. -/
theorem delete_missing_id_not_found_witness :
    delete_todo (FileState.stored [Record.mk 1 "A" "B" false none]) 2 =
      (FileState.stored [Record.mk 1 "A" "B" false none], ApiResult.notFound) :=
  (delete_missing_id_not_found
    (FileState.stored [Record.mk 1 "A" "B" false none]) 2 (by decide)).1

/-- C10.  After a successful delete, no record with the deleted id remains
in the stored collection: the handler filters out every matching record,
not just the first. -/
theorem delete_removes_all_matching (file : FileState) (todo_id : Int)
    (hok : (delete_todo file todo_id).2 = ApiResult.ok ()) :
    ∀ t ∈ load_todos (delete_todo file todo_id).1, t.id ≠ todo_id := by
  intro t ht
  by_cases hlen : (((load_todos file).filter (fun t => !(t.id == todo_id))).length ==
      (load_todos file).length) = true
  · simp [delete_todo, hlen] at hok
  · simp only [delete_todo, hlen, if_false, Bool.false_eq_true, save_todos,
      load_todos_stored] at ht
    have := List.of_mem_filter ht
    simpa using this

/-- C10 witness: a file holding two records with id 1 and one with id 2;
deleting id 1 succeeds and the surviving record's id differs from 1. -/
theorem delete_removes_all_matching_witness :
    (Record.mk 2 "C" "c" false none).id ≠ (1 : Int) :=
  delete_removes_all_matching
    (FileState.stored [Record.mk 1 "A" "a" false none,
      Record.mk 1 "B" "b" true none, Record.mk 2 "C" "c" false none]) 1
    (by decide) (Record.mk 2 "C" "c" false none) (by decide)

/-- C3.  Whenever Replace succeeds, the returned record's id is the path
parameter, and that record is what was stored — independently of the id in
the request body. -/
theorem put_path_id_wins (startToday : String) (file : FileState)
    (todo_id : Int) (updated : TodoItem) (r : Record)
    (hok : (update_todo startToday file todo_id updated).2 = ApiResult.ok r) :
    r.id = todo_id ∧
    r ∈ load_todos (update_todo startToday file todo_id updated).1 := by
  cases hu : update_loop startToday todo_id updated (load_todos file) with
  | none => simp only [update_todo, hu] at hok; simp at hok
  | some p =>
    obtain ⟨l2, r2⟩ := p
    have heq : update_todo startToday file todo_id updated =
        (save_todos l2, ApiResult.ok r2) := by
      simp only [update_todo, hu]
    rw [heq] at hok
    obtain rfl : r2 = r := by simpa using hok
    obtain ⟨g1, g2, _⟩ := update_loop_spec startToday todo_id updated _ l2 r2 hu
    rw [heq]
    exact ⟨g1, by simpa [save_todos, load_todos_stored] using g2⟩

/-- C3 witness: replacing record id 1 with a body carrying id 999 stores
and returns a record with id 1 (the spec's own example). -/
theorem put_path_id_wins_witness :
    (1 : Int) = 1 ∧
    Record.mk 1 "Updated" "Updated description" true "2024-03-03" ∈
      load_todos (update_todo "2024-03-01"
        (FileState.stored [Record.mk 1 "Test" "Test description" false
          (some "2024-01-01")]) 1
        (TodoItem.mk 999 "Updated" "Updated description" true "2024-03-03")).1 := by
  have h := put_path_id_wins "2024-03-01"
    (FileState.stored [Record.mk 1 "Test" "Test description" false
      (some "2024-01-01")]) 1
    (TodoItem.mk 999 "Updated" "Updated description" true "2024-03-03")
    (Record.mk 1 "Updated" "Updated description" true "2024-03-03") (by decide)
  exact ⟨h.1, h.2⟩

/-- C9.  A date patch on an existing record stores and returns that record
with only its date replaced: id, title, description and completed keep
their prior stored values. -/
theorem patch_date_updates_only_date (startToday : String) (file : FileState)
    (todo_id : Int) (d : String) (t0 : Record)
    (hval : valid_date d = true)
    (hfind : (load_todos file).find? (fun t => t.id == todo_id) = some t0) :
    (patchTodoDate startToday file todo_id (some d)).2 =
      ApiResult.ok (Record.mk t0.id t0.title t0.description t0.completed (some d)) ∧
    Record.mk t0.id t0.title t0.description t0.completed (some d) ∈
      load_todos (patchTodoDate startToday file todo_id (some d)).1 := by
  obtain ⟨l2, hl, hm⟩ := patch_loop_spec startToday todo_id d _ t0 hfind
  simp only [patchTodoDate, parseDateOnly, hval, if_true, update_todo_date, hl,
    save_todos, load_todos_stored]
  exact ⟨trivial, hm⟩

/-- C1 counterexample: the stored record for id 1 has date 2020-05-05, the
PUT body omits `date`, yet the stored and returned record's date is the
request-day date 2026-10-12 (filled in by the model's default before the
handler merges), not the prior stored date — although the prior record had
a date.  This contradicts the claim that the prior stored date is
preserved and that today's date appears only when the prior record lacked
one. -/
theorem put_omitted_date_ignores_prior_date_cex :
    putTodo "2026-10-12" "2026-10-12"
        (FileState.stored [Record.mk 1 "A" "B" false (some "2020-05-05")]) 1
        (RawTodo.mk 1 "T" "D" (some false) none) =
      (FileState.stored [Record.mk 1 "T" "D" false (some "2026-10-12")],
        ApiResult.ok (Record.mk 1 "T" "D" false (some "2026-10-12"))) ∧
    ("2026-10-12" : String) ≠ "2020-05-05" := by decide

/-- C1 (amended).  When the PUT body omits `date`, pydantic's
`default_factory` fills the request-time date before the handler runs, so
the stored and returned record's date is always the request-time current
date, regardless of the prior stored record's date; the handler's branch
restoring the prior date fires only on an empty merged date, which cannot
arise (the default is a non-empty ISO date string). -/
theorem put_omitted_date_stores_request_today (startToday reqToday : String)
    (file : FileState) (todo_id : Int) (raw : RawTodo) (r : Record)
    (hdate : raw.date = none) (hne : reqToday ≠ "")
    (hok : (putTodo startToday reqToday file todo_id raw).2 = ApiResult.ok r) :
    r.date = some reqToday ∧
    r ∈ load_todos (putTodo startToday reqToday file todo_id raw).1 := by
  cases hp : parseTodoItem raw reqToday with
  | error e => simp only [putTodo, hp] at hok; simp at hok
  | ok todo =>
    have htd : todo.date = reqToday :=
      parseTodoItem_date_none raw reqToday todo hdate hp
    have hput : putTodo startToday reqToday file todo_id raw =
        update_todo startToday file todo_id todo := by
      simp only [putTodo, hp]
    rw [hput] at hok ⊢
    cases hu : update_loop startToday todo_id todo (load_todos file) with
    | none => simp only [update_todo, hu] at hok; simp at hok
    | some p =>
      obtain ⟨l2, r2⟩ := p
      have heq : update_todo startToday file todo_id todo =
          (save_todos l2, ApiResult.ok r2) := by
        simp only [update_todo, hu]
      rw [heq] at hok
      obtain rfl : r2 = r := by simpa using hok
      obtain ⟨_, g2, g3⟩ := update_loop_spec startToday todo_id todo _ l2 r2 hu
      have hd : r2.date = some todo.date := g3 (by rw [htd]; exact hne)
      rw [heq]
      exact ⟨by rw [hd, htd],
        by simpa [save_todos, load_todos_stored] using g2⟩

/-- C1 witness: body with id 7 and no date against a stored record with
date 2020-05-05; the result carries the request-day date. -/
theorem put_omitted_date_stores_request_today_witness :
    (Record.mk 1 "T" "D" false (some "2026-10-12")).date = some "2026-10-12" ∧
    Record.mk 1 "T" "D" false (some "2026-10-12") ∈
      load_todos (putTodo "2026-10-11" "2026-10-12"
        (FileState.stored [Record.mk 1 "A" "B" false (some "2020-05-05")]) 1
        (RawTodo.mk 7 "T" "D" (some false) none)).1 :=
  put_omitted_date_stores_request_today "2026-10-11" "2026-10-12"
    (FileState.stored [Record.mk 1 "A" "B" false (some "2020-05-05")]) 1
    (RawTodo.mk 7 "T" "D" (some false) none)
    (Record.mk 1 "T" "D" false (some "2026-10-12")) rfl (by decide) (by decide)

/-- C2 counterexample: the process was imported on 2024-01-01 (`TODAY`),
and a request arrives on 2024-01-02; the stored record lacks a date, and
both List and Get-one return it with date 2024-01-01 — the module-import
date, not the current date at the time of the request. -/
theorem read_backfill_uses_start_date_cex :
    (get_todos "2024-01-01"
        (FileState.stored [Record.mk 1 "A" "B" false none]) none none).2 =
      ApiResult.ok [Record.mk 1 "A" "B" false (some "2024-01-01")] ∧
    (get_todo "2024-01-01"
        (FileState.stored [Record.mk 1 "A" "B" false none]) 1).2 =
      ApiResult.ok (Record.mk 1 "A" "B" false (some "2024-01-01")) ∧
    ("2024-01-01" : String) ≠ "2024-01-02" := by decide

/-- C2 (amended).  For every stored record lacking a date, List and
Get-one return that record with its date set to `TODAY` — the date
captured once at module import (`startToday`) — which equals the
request-time current date only while the process serves requests on its
start day. -/
theorem read_backfill_date_is_process_start_date (startToday : String)
    (file : FileState) (todo_id : Int) (t0 : Record)
    (hmem : t0 ∈ load_todos file) (hnd : t0.date = none)
    (hfind : (load_todos file).find? (fun t => t.id == todo_id) = some t0) :
    (∃ l, (get_todos startToday file none none).2 = ApiResult.ok l ∧
      Record.mk t0.id t0.title t0.description t0.completed (some startToday) ∈ l) ∧
    (get_todo startToday file todo_id).2 =
      ApiResult.ok
        (Record.mk t0.id t0.title t0.description t0.completed (some startToday)) := by
  have hens : ensure_date startToday t0 =
      Record.mk t0.id t0.title t0.description t0.completed (some startToday) := by
    simp [ensure_date, hnd]
  constructor
  · refine ⟨(load_todos file).map (ensure_date startToday), rfl, ?_⟩
    rw [← hens]
    exact List.mem_map_of_mem _ hmem
  · simp only [get_todo, hfind, hens]

/-- C2 witness. -/
theorem read_backfill_date_is_process_start_date_witness :
    (get_todo "2024-01-01" (FileState.stored [Record.mk 1 "A" "B" false none]) 1).2 =
      ApiResult.ok (Record.mk 1 "A" "B" false (some "2024-01-01")) :=
  (read_backfill_date_is_process_start_date "2024-01-01"
    (FileState.stored [Record.mk 1 "A" "B" false none]) 1
    (Record.mk 1 "A" "B" false none) (by decide) rfl (by decide)).2

/-- C4 counterexample: the validator accepts "2024-1-1", a string that is
not in strict `YYYY-MM-DD` form, refuting the claimed "only if"
direction. -/
theorem valid_date_accepts_nonpadded_cex :
    valid_date "2024-1-1" = true ∧ specIsYYYYMMDD "2024-1-1" = false := by
  decide

/-- C4 (amended).  Every strict `YYYY-MM-DD` string is accepted exactly
when its components form a real calendar date, and a body whose date fails
the validator makes Create, Replace and Patch-date fail with a 422
validation error while leaving the stored file untouched; but acceptance
is broader than the strict form (see the counterexample). -/
theorem valid_date_strict_form_and_rejection :
    (∀ y m d : Nat, y ≤ 9999 → m ≤ 99 → d ≤ 99 →
      valid_date (specDateString y m d) = isRealDate y m d) ∧
    (∀ startToday reqToday : String, ∀ file : FileState, ∀ todo_id : Int,
      ∀ raw : RawTodo, ∀ s : String, raw.date = some s → valid_date s = false →
      (postTodos reqToday file raw).1 = file ∧
      (∃ e, (postTodos reqToday file raw).2 = ApiResult.validationError e) ∧
      (putTodo startToday reqToday file todo_id raw).1 = file ∧
      (∃ e, (putTodo startToday reqToday file todo_id raw).2 =
        ApiResult.validationError e) ∧
      patchTodoDate startToday file todo_id (some s) =
        (file, ApiResult.validationError "date must be YYYY-MM-DD")) := by
  constructor
  · exact valid_date_specDateString
  · intro startToday reqToday file todo_id raw s hs hval
    have hparse : ∃ e, parseTodoItem raw reqToday = Except.error e := by
      cases h1 : not_empty raw.title with
      | error e => exact ⟨e, by simp [parseTodoItem, h1]⟩
      | ok title =>
        cases h2 : not_empty raw.description with
        | error e => exact ⟨e, by simp [parseTodoItem, h1, h2]⟩
        | ok description =>
          exact ⟨"date must be YYYY-MM-DD",
            by simp [parseTodoItem, h1, h2, hs, hval]⟩
    obtain ⟨e, he⟩ := hparse
    refine ⟨?_, ⟨e, ?_⟩, ?_, ⟨e, ?_⟩, ?_⟩
    · simp [postTodos, he]
    · simp [postTodos, he]
    · simp [putTodo, he]
    · simp [putTodo, he]
    · simp [patchTodoDate, parseDateOnly, hval]

/-- C4 witness: 2024-02-29 in strict form is a real leap-year date, and a
malformed date body is rejected with the file untouched. -/
theorem valid_date_strict_form_and_rejection_witness :
    valid_date (specDateString 2024 2 29) = isRealDate 2024 2 29 ∧
    (postTodos "2024-03-01" FileState.missing
        (RawTodo.mk 1 "T" "D" none (some "2024-13-99"))).1 = FileState.missing ∧
    patchTodoDate "2024-03-01" FileState.missing 1 (some "2024-13-99") =
      (FileState.missing, ApiResult.validationError "date must be YYYY-MM-DD") := by
  have h := valid_date_strict_form_and_rejection
  have hb := h.2 "2024-03-01" "2024-03-01" FileState.missing 1
    (RawTodo.mk 1 "T" "D" none (some "2024-13-99")) "2024-13-99" rfl (by decide)
  exact ⟨h.1 2024 2 29 (by decide) (by decide) (by decide), hb.1, hb.2.2.2.2⟩

/-- C9 witness: the spec's example scenario — patching record 1's date to
2024-01-01 returns the record with only the date changed. -/
theorem patch_date_updates_only_date_witness :
    (patchTodoDate "2024-03-01"
        (FileState.stored [Record.mk 1 "A" "B" false (some "2023-12-31")]) 1
        (some "2024-01-01")).2 =
      ApiResult.ok (Record.mk 1 "A" "B" false (some "2024-01-01")) ∧
    Record.mk 1 "A" "B" false (some "2024-01-01") ∈
      load_todos (patchTodoDate "2024-03-01"
        (FileState.stored [Record.mk 1 "A" "B" false (some "2023-12-31")]) 1
        (some "2024-01-01")).1 :=
  patch_date_updates_only_date "2024-03-01"
    (FileState.stored [Record.mk 1 "A" "B" false (some "2023-12-31")]) 1
    "2024-01-01" (Record.mk 1 "A" "B" false (some "2023-12-31"))
    (by decide) (by decide)

end Todos
